import Mathlib

/-!
Shallow embedding of the change-detection core of PolyAlertPet
(`app/background.py`, `app/db.py`, `app/polymarket.py`) and proofs about it.

Conventions used throughout:
* Python floats (`percentPnl`, `curPrice`, portfolio value) are modelled as `ℚ`.
* Trade timestamps (`int(t.get("timestamp", 0))`) and the activity watermark
  (`last_seen_timestamp BIGINT`) are modelled as `Int`.
* A remote fetch that may raise is modelled with `Option`: `none` is the
  raised-exception case.
* Sending a Telegram message has no feedback into the algorithm (send failures
  are swallowed), so an "alert" is modelled as the data the loop decided to
  report, collected into a list in emission order.
-/

namespace PolyAlert

/-- One trade object returned by the activity feed, with the fields read by
`monitor_whales` in `app/background.py`.  `timestamp` is the value of
`int(t.get("timestamp", 0))`; the remaining fields are only interpolated into
the notification text (with defensive parsing), so they are kept as raw
optional payload strings. -/
structure Trade where
  timestamp : Int
  title : Option String
  outcome : Option String
  side : Option String
  usdcSize : Option String
  price : Option String
  slug : Option String
  eventSlug : Option String
deriving DecidableEq

/-- Comparison key of `sorted(trades, key=lambda t: int(t.get("timestamp", 0)))`. -/
def tradeLE (a b : Trade) : Prop := a.timestamp ≤ b.timestamp

instance : DecidableRel tradeLE := fun a b => Int.decLe a.timestamp b.timestamp

instance : IsTotal Trade tradeLE := ⟨fun a b => Int.le_total a.timestamp b.timestamp⟩

instance : IsTrans Trade tradeLE := ⟨fun _ _ _ h h2 => le_trans h h2⟩

/-- The `limit` request parameter used by `pm_get_activity_trades` in
`app/polymarket.py` (`"limit": 100`). -/
def pm_activity_request_limit : Nat := 100

/-- Client-side part of `pm_get_activity_trades` (`app/polymarket.py`):
given the decoded response body, keep only trades strictly newer than
`since_ts` (`[t for t in trades if int(t.get("timestamp", 0)) > since_ts]`);
with `since_ts=None` the response is returned unfiltered. -/
def pm_get_activity_trades (resp : List Trade) (since_ts : Option Int) : List Trade :=
  match since_ts with
  | none => resp
  | some s => resp.filter (fun t => s < t.timestamp)

/-- The per-trade loop of `monitor_whales` (`app/background.py` lines 172-223):
trades with `ts <= last_ts` are skipped; for every other trade the running
maximum `max_ts = max(max_ts, ts)` is advanced and one alert is emitted.
Returns the final `max_ts` and the emitted trades in emission order. -/
def whaleLoop (last_ts : Int) (max_ts : Int) : List Trade → Int × List Trade
  | [] => (max_ts, [])
  | t :: ts =>
    if t.timestamp ≤ last_ts then
      whaleLoop last_ts max_ts ts
    else
      let rest := whaleLoop last_ts (max max_ts t.timestamp) ts
      (rest.1, t :: rest.2)

/-- Per-address body of `monitor_whales` after the activity fetch
(`app/background.py` lines 166-238): if no trades were returned the address is
skipped; otherwise the trades are sorted ascending by timestamp (Python's
`sorted` is stable, modelled by the stable `List.insertionSort`), the per-trade
loop runs with `max_ts` initialised to `last_ts`, and afterwards the new
watermark `max_ts` is persisted iff `max_ts > last_ts` (`some` = value written
to `activity_markers`, `none` = no write). -/
def monitorWhaleAddress (last_ts : Int) (trades : List Trade) : List Trade × Option Int :=
  if trades.isEmpty then
    ([], none)
  else
    let sorted := List.insertionSort tradeLE trades
    let r := whaleLoop last_ts last_ts sorted
    (r.2, if last_ts < r.1 then some r.1 else none)

/-- One whale-address cycle: the fetch `pm_get_activity_trades(address,
since_ts=last_ts)` applied to the raw feed response, followed by
`monitorWhaleAddress`. -/
def whaleCycleStep (last_ts : Int) (resp : List Trade) : List Trade × Option Int :=
  monitorWhaleAddress last_ts (pm_get_activity_trades resp (some last_ts))

/-- Sample trade carrying a given timestamp. -/
def mkTrade (ts : Int) : Trade :=
  ⟨ts, some "Market", some "Yes", some "BUY", some "50", some "0.5", some "s", some "e"⟩

/-- Feed response of the concrete whale scenario: trades at timestamps
900, 1200, 1100, in that order. -/
def sampleResp : List Trade := [mkTrade 900, mkTrade 1200, mkTrade 1100]

/-- One row of the `wallets` table (`app/db.py` DDL), restricted to the columns
the core reads and writes.  Column defaults from the DDL:
`alerts_enabled DEFAULT TRUE`, `whale_alerts_enabled DEFAULT FALSE`. -/
structure WalletRow where
  id : Nat
  tg_user_id : Int
  address : String
  label : Option String
  is_whale : Bool
  alerts_enabled : Bool
  whale_alerts_enabled : Bool
deriving DecidableEq

/-- One row of the `activity_markers` table (`app/db.py` DDL). -/
structure Marker where
  wallet_id : Nat
  last_seen_timestamp : Int
deriving DecidableEq

/-- The slice of database state touched by `save_wallet`.  `nextId` models the
`SERIAL` id sequence of `wallets`. -/
structure DB where
  wallets : List WalletRow
  markers : List Marker
  nextId : Nat
deriving DecidableEq

/-- Database with no wallets and no markers. -/
def emptyDB : DB := ⟨[], [], 1⟩

/-- The (subscriber, address, role) triple of a wallet row. -/
def tripleOf (w : WalletRow) : Int × String × Bool := (w.tg_user_id, w.address, w.is_whale)

/-- The existence check of `save_wallet` (`app/db.py` lines 94-104):
`SELECT id FROM wallets WHERE tg_user_id=$1 AND address=$2 AND is_whale=$3`. -/
def tripleExists (db : DB) (tg : Int) (addr : String) (iw : Bool) : Bool :=
  db.wallets.any fun w => w.tg_user_id == tg && w.address == addr && w.is_whale == iw

/-- The `save_wallet` operation (`app/db.py` lines 82-133): if a row with the
same (subscriber, address, is_whale) triple exists it returns `"exists"` and
changes nothing; otherwise it inserts a wallet row (whale rows with
`whale_alerts_enabled=TRUE`, own-wallet rows with `alerts_enabled=TRUE`, the
other flag at its DDL default) and, for a whale, an `activity_markers` row with
`last_seen_timestamp=0`. -/
def save_wallet (db : DB) (tg : Int) (addr : String) (label : Option String)
    (is_whale : Bool) : DB × String :=
  if tripleExists db tg addr is_whale then
    (db, "exists")
  else if is_whale then
    (⟨db.wallets ++ [⟨db.nextId, tg, addr, label, true, true, true⟩],
      db.markers ++ [⟨db.nextId, 0⟩], db.nextId + 1⟩, "whale_added")
  else
    (⟨db.wallets ++ [⟨db.nextId, tg, addr, label, false, true, false⟩],
      db.markers, db.nextId + 1⟩, "wallet_added")

/-- Arguments of one `save_wallet` call. -/
structure SaveOp where
  tg : Int
  addr : String
  label : Option String
  is_whale : Bool

/-- State reached by a sequence of `save_wallet` calls. -/
def runSaves (ops : List SaveOp) (db : DB) : DB :=
  ops.foldl (fun d op => (save_wallet d op.tg op.addr op.label op.is_whale).1) db

/-- Uniqueness invariant on tracked addresses: no two wallet rows share the
same (subscriber, address, is_whale) triple. -/
def UniqueTriples (db : DB) : Prop := (db.wallets.map tripleOf).Nodup

instance (db : DB) : Decidable (UniqueTriples db) :=
  List.nodupDecidable (db.wallets.map tripleOf)

/-- Database obtained from the empty one by tracking address "0xabc" as an own
wallet for subscriber 7. -/
def dbOwn : DB := (save_wallet emptyDB 7 "0xabc" none false).1

/-- One element of the positions feed, with the fields read by
`monitor_positions` in `app/background.py` (`conditionId`, `title`, `outcome`,
`percentPnl`, `curPrice`); a `none` field is a missing/null payload entry. -/
structure Position where
  conditionId : Option String
  title : Option String
  outcome : Option String
  percentPnl : Option ℚ
  curPrice : Option ℚ
deriving DecidableEq

/-- One row of the `position_snapshots` table (`app/db.py` DDL).  Timestamps
(`last_alert_at`, `updated_at`) are abstract instants modelled as `Nat`. -/
structure PosSnapshot where
  wallet_id : Nat
  condition_id : String
  title : Option String
  outcome : Option String
  last_percent_pnl : Option ℚ
  last_cur_price : Option ℚ
  last_alert_at : Option Nat
  updated_at : Nat
deriving DecidableEq

/-- The data of one position-move notification (wallet, market condition and
the current percentage P&L it reports). -/
structure AlertMsg where
  wallet_id : Nat
  condition_id : String
  percent : ℚ
deriving DecidableEq

/-- Wallet columns selected by the roster query of `monitor_positions`
(`SELECT w.id, w.address, w.tg_user_id, w.label`). -/
structure WalletInfo where
  id : Nat
  address : String
  tg_user_id : Int
  label : Option String
deriving DecidableEq

/-- Outcome of the two remote fetches for one address in `monitor_positions`:
`positions = none` models `pm_get_positions` raising (line 28-31), and
`value = none` models `pm_get_value` raising (line 33-36); `value = some none`
is a successful fetch that found no value. -/
structure AddrFetch where
  positions : Option (List Position)
  value : Option (Option ℚ)
deriving DecidableEq

/-- Database state touched by `monitor_positions`: the `position_snapshots`
rows and the append-only `equity_snapshots` rows (wallet id, taken_at,
total_value). -/
structure StateA where
  posStore : List PosSnapshot
  equity : List (Nat × Nat × ℚ)
deriving DecidableEq

/-- The row lookup `SELECT last_percent_pnl FROM position_snapshots WHERE
wallet_id=$1 AND condition_id=$2` (`app/background.py` lines 61-69), returning
the whole row; `UNIQUE (wallet_id, condition_id)` makes the row unique when it
exists. -/
def findSnapshot (store : List PosSnapshot) (wid : Nat) (cond : String) :
    Option PosSnapshot :=
  store.find? fun r => r.wallet_id == wid && r.condition_id == cond

/-- The alert decision of `monitor_positions` (lines 70-78): no prior row or a
null stored percentage means no alert; otherwise alert iff
`abs(float(cur_pct) - float(prev_pct)) >= alert_threshold_percent`. -/
def shouldAlertFor (threshold : ℚ) (row : Option PosSnapshot) (cur_pct : ℚ) : Bool :=
  match row with
  | none => false
  | some r =>
    match r.last_percent_pnl with
    | none => false
    | some prev => decide (threshold ≤ |cur_pct - prev|)

/-- Intended meaning of the snapshot upsert statement (lines 80-108), read as
its author evidently meant it: insert the row on first observation, otherwise
overwrite title, outcome, percentage and price, set `updated_at` to the current
instant, and set `last_alert_at` to the current instant only when alerting
fired, else keep the previous value. -/
def upsertSnapshot (store : List PosSnapshot) (wid : Nat) (cond : String)
    (title outcome : Option String) (pct : ℚ) (price : Option ℚ)
    (sa : Bool) (now : Nat) : List PosSnapshot :=
  match findSnapshot store wid cond with
  | some _ =>
    store.map fun r =>
      if r.wallet_id == wid && r.condition_id == cond then
        { r with
          title := title, outcome := outcome,
          last_percent_pnl := some pct, last_cur_price := price,
          last_alert_at := if sa then some now else r.last_alert_at,
          updated_at := now }
      else r
  | none =>
    store ++ [⟨wid, cond, title, outcome, some pct, price,
               if sa then some now else none, now⟩]

/-- Unqualified target-table column names referenced by the expressions of the
`VALUES` list of the snapshot upsert in `monitor_positions`
(`app/background.py` lines 80-108): its seventh value is
`CASE WHEN $7 THEN now() ELSE last_alert_at END`.  Transcribed from the
statement text. -/
def positionUpsertValuesTargetColumnRefs : List String := ["last_alert_at"]

/-- PostgreSQL name resolution for `INSERT ... VALUES`: the target table's
columns are not in scope inside the VALUES expressions (INSERT adds the target
relation to the range table but not to the column namespace), so a statement
referencing one there fails with an undefined-column error (SQLSTATE 42703) at
parse time.  A VALUES list is valid in this respect iff it references no
target-table column. -/
def insertValuesScopeValid (targetColumnRefs : List String) : Bool :=
  targetColumnRefs.isEmpty

/-- Whether executing the snapshot upsert raises: it does, on every execution,
whenever its VALUES list is rejected by PostgreSQL's scoping rule above. -/
def positionUpsertRaises : Bool :=
  !insertValuesScopeValid positionUpsertValuesTargetColumnRefs

/-- The per-position loop of `monitor_positions` (lines 51-127) under actual
PostgreSQL semantics.  Positions missing `conditionId` or `percentPnl` are
skipped.  For the rest, the prior row is read and the alert decision taken, and
then `conn.execute` runs the upsert: when the statement raises
(`positionUpsertRaises`), the exception aborts the loop before the row is
written and before the notification send is reached; otherwise the row is
upserted and, if alerting fired, one notification is emitted.  Returns the
resulting store, the emitted alerts in order, and `true` iff the loop finished
without raising. -/
def processPositionsPg (threshold : ℚ) (now : Nat) (wid : Nat) :
    List Position → List PosSnapshot → List PosSnapshot × List AlertMsg × Bool
  | [], store => (store, [], true)
  | p :: ps, store =>
    match p.conditionId, p.percentPnl with
    | some cond, some cur_pct =>
      let row := findSnapshot store wid cond
      let sa := shouldAlertFor threshold row cur_pct
      if positionUpsertRaises then
        (store, [], false)
      else
        let store1 := upsertSnapshot store wid cond p.title p.outcome cur_pct
          p.curPrice sa now
        let rest := processPositionsPg threshold now wid ps store1
        (rest.1, (if sa then [⟨wid, cond, cur_pct⟩] else []) ++ rest.2.1, rest.2.2)
    | _, _ => processPositionsPg threshold now wid ps store

/-- Per-address body of `monitor_positions` after a successful positions
fetch (lines 33-127), under actual PostgreSQL semantics: a present total value
appends an equity row `(wallet_id, now, total_value)`, then the per-position
loop runs on the snapshot store.  Returns the new state, the emitted alerts,
and `true` iff no exception escaped. -/
def monitorPositionsAddressPg (threshold : ℚ) (now : Nat) (w : WalletInfo)
    (ps : List Position) (total_value : Option ℚ) (s : StateA) :
    StateA × List AlertMsg × Bool :=
  let s1 : StateA :=
    match total_value with
    | some v => { s with equity := s.equity ++ [(w.id, now, v)] }
    | none => s
  let r := processPositionsPg threshold now w.id ps s1.posStore
  ({ s1 with posStore := r.1 }, r.2.1, r.2.2)

/-- One cycle of `monitor_positions` (lines 22-130) over the roster, under
actual PostgreSQL semantics.  A failed positions fetch skips the address
(`continue`); a failed value fetch is treated as absent (`total_value = None`);
then the per-address body runs.  An exception escaping it is caught by the
whole-cycle `except` handler, ending the cycle: later addresses are not
processed, but state changes and notifications already made persist. -/
def monitorPositionsCyclePg (threshold : ℚ) (now : Nat) :
    List (WalletInfo × AddrFetch) → StateA → StateA × List AlertMsg
  | [], s => (s, [])
  | (w, f) :: rest, s =>
    match f.positions with
    | none => monitorPositionsCyclePg threshold now rest s
    | some ps =>
      let tv : Option ℚ := match f.value with | none => none | some v => v
      let a := monitorPositionsAddressPg threshold now w ps tv s
      if a.2.2 then
        let k := monitorPositionsCyclePg threshold now rest a.1
        (k.1, a.2.1 ++ k.2)
      else
        (a.1, a.2.1)

/-- Wallet used in the concrete position-loop scenarios. -/
def sampleWallet : WalletInfo := ⟨1, "0xabc", 7, none⟩

/-- Store holding one prior snapshot for wallet 1, condition "cond-1", with
stored percentage 10 (the prior of the concrete scenarios). -/
def c1Store : List PosSnapshot :=
  [⟨1, "cond-1", some "Market", some "Yes", some 10, some 1, none, 0⟩]

/-- Position with current percentage 16 for condition "cond-1". -/
def c1Pos : Position := ⟨some "cond-1", some "Market", some "Yes", some 16, some 1⟩

/-- Position with current percentage 12 for condition "cond-1" (below the
threshold 5 relative to the stored 10). -/
def c5Pos : Position := ⟨some "cond-1", some "Market", some "Yes", some 12, some 1⟩

/-- Roster of one address whose two fetches succeed, the value fetch finding
nothing, and whose positions fetch returns `c1Pos`. -/
def c4Roster : List (WalletInfo × AddrFetch) :=
  [(sampleWallet, ⟨some [c1Pos], some none⟩)]

/-- Fetch outcome where the value fetch raises but the positions fetch
succeeds with one diffable position. -/
def c7Fetch : AddrFetch := ⟨some [c1Pos], none⟩

/-- The per-trade loop both emits exactly the trades strictly newer than
`last_ts` (in input order) and computes `max_ts` as the running maximum of the
initial value and the emitted timestamps. -/
theorem whaleLoop_spec (l : Int) (ts : List Trade) : ∀ m : Int,
    whaleLoop l m ts
      = (((ts.filter fun t => decide (l < t.timestamp)).map Trade.timestamp).foldl max m,
         ts.filter fun t => decide (l < t.timestamp)) := by
  induction ts with
  | nil => intro m; rfl
  | cons t ts ih =>
    intro m
    by_cases h : t.timestamp ≤ l
    · have hd : decide (l < t.timestamp) = false := by simp [not_lt.mpr h]
      simp [whaleLoop, if_pos h, List.filter_cons, hd, ih]
    · have hd : decide (l < t.timestamp) = true := by simp [lt_of_not_ge h]
      simp [whaleLoop, if_neg h, List.filter_cons, hd, ih]

/-- The initial accumulator is a lower bound of a left fold of `max`. -/
theorem le_foldl_max (xs : List Int) : ∀ m : Int, m ≤ xs.foldl max m := by
  induction xs with
  | nil => intro m; exact le_refl m
  | cons x xs ih => intro m; exact le_trans (le_max_left m x) (ih (max m x))

/-- A left fold of `max` is either the initial accumulator or an element. -/
theorem foldl_max_mem (xs : List Int) : ∀ m : Int,
    xs.foldl max m = m ∨ xs.foldl max m ∈ xs := by
  induction xs with
  | nil => intro m; exact Or.inl rfl
  | cons x xs ih =>
    intro m
    rcases ih (max m x) with h | h
    · rcases max_choice m x with hm | hm
      · exact Or.inl (by rw [List.foldl_cons, h, hm])
      · exact Or.inr (by rw [List.foldl_cons, h, hm]; exact List.mem_cons_self x xs)
    · exact Or.inr (List.mem_cons_of_mem x h)

/-- Every element is bounded by a left fold of `max` over the list. -/
theorem mem_le_foldl_max (xs : List Int) : ∀ (m : Int), ∀ x ∈ xs, x ≤ xs.foldl max m := by
  induction xs with
  | nil => intro m x hx; cases hx
  | cons y xs ih =>
    intro m x hx
    rcases List.mem_cons.mp hx with h | h
    · subst h; exact le_trans (le_max_right m x) (le_foldl_max xs (max m x))
    · exact ih (max m y) x h

/-- On a non-empty post-fetch trade list, the whale address step is the filter
of the sorted trades together with the conditional watermark write. -/
theorem monitorWhaleAddress_spec (l : Int) (trades : List Trade)
    (hne : trades.isEmpty = false) :
    monitorWhaleAddress l trades
      = ((List.insertionSort tradeLE trades).filter fun t => decide (l < t.timestamp),
         if l < (((List.insertionSort tradeLE trades).filter
                    fun t => decide (l < t.timestamp)).map Trade.timestamp).foldl max l
         then some ((((List.insertionSort tradeLE trades).filter
                    fun t => decide (l < t.timestamp)).map Trade.timestamp).foldl max l)
         else none) := by
  simp [monitorWhaleAddress, hne, whaleLoop_spec]

/-- C2: within one whale cycle, alerts are emitted in non-decreasing
trade-timestamp order; only trades strictly newer than the stored watermark are
alerted; whenever a watermark is persisted it is the maximum timestamp among
the alerted trades, and a watermark is persisted whenever any trade was
alerted; the effective watermark after the cycle is never less than before. -/
theorem whale_cycle_order_and_watermark (last_ts : Int) (resp : List Trade) :
    List.Sorted (fun a b : Int => a ≤ b)
        (((whaleCycleStep last_ts resp).1).map Trade.timestamp)
    ∧ (∀ t ∈ (whaleCycleStep last_ts resp).1, last_ts < t.timestamp)
    ∧ (∀ w, (whaleCycleStep last_ts resp).2 = some w →
        w ∈ ((whaleCycleStep last_ts resp).1).map Trade.timestamp
          ∧ ∀ x ∈ ((whaleCycleStep last_ts resp).1).map Trade.timestamp, x ≤ w)
    ∧ ((whaleCycleStep last_ts resp).1 ≠ [] →
        ∃ w, (whaleCycleStep last_ts resp).2 = some w)
    ∧ last_ts ≤ ((whaleCycleStep last_ts resp).2.getD last_ts) := by
  classical
  by_cases hemp : (pm_get_activity_trades resp (some last_ts)).isEmpty
  · have hstep : whaleCycleStep last_ts resp = ([], none) := by
      simp [whaleCycleStep, monitorWhaleAddress, hemp]
    refine ⟨?_, ?_, ?_, ?_, ?_⟩ <;> simp [hstep]
  · have hemp2 : (pm_get_activity_trades resp (some last_ts)).isEmpty = false :=
      Bool.not_eq_true _ ▸ (by simpa using hemp)
    set trades := pm_get_activity_trades resp (some last_ts) with htr
    set sorted := List.insertionSort tradeLE trades with hso
    set alertsL := sorted.filter (fun t => decide (last_ts < t.timestamp)) with hal
    set M := ((alertsL.map Trade.timestamp).foldl max last_ts) with hM
    have hstep : whaleCycleStep last_ts resp
        = (alertsL, if last_ts < M then some M else none) := by
      rw [whaleCycleStep, ← htr, monitorWhaleAddress_spec last_ts trades hemp2]
    have hsortedA : List.Sorted (fun a b : Int => a ≤ b)
        (alertsL.map Trade.timestamp) := by
      have h1 : List.Sorted tradeLE sorted := List.sorted_insertionSort tradeLE trades
      have h2 : List.Pairwise tradeLE alertsL :=
        List.Pairwise.sublist (List.filter_sublist sorted) h1
      exact h2.map Trade.timestamp (fun a b h => h)
    have hgt : ∀ t ∈ alertsL, last_ts < t.timestamp := by
      intro t ht
      have := (List.mem_filter.mp ht).2
      simpa using this
    have hle : ∀ x ∈ alertsL.map Trade.timestamp, x ≤ M := by
      intro x hx
      exact mem_le_foldl_max (alertsL.map Trade.timestamp) last_ts x hx
    refine ⟨?_, ?_, ?_, ?_, ?_⟩
    · rw [hstep]; exact hsortedA
    · rw [hstep]; exact hgt
    · rw [hstep]
      intro w hw
      by_cases hlt : last_ts < M
      · rw [if_pos hlt] at hw
        have hwM : w = M := by simpa using hw.symm
        subst hwM
        constructor
        · rcases foldl_max_mem (alertsL.map Trade.timestamp) last_ts with h | h
          · rw [← hM] at h
            exact absurd (h ▸ hlt) (lt_irrefl _)
          · exact h
        · exact hle
      · rw [if_neg hlt] at hw
        cases hw
    · rw [hstep]
      intro hne
      rcases List.exists_mem_of_ne_nil _ hne with ⟨t, ht⟩
      have h1 : last_ts < t.timestamp := hgt t ht
      have h2 : t.timestamp ≤ M :=
        hle t.timestamp (List.mem_map_of_mem Trade.timestamp ht)
      have : last_ts < M := lt_of_lt_of_le h1 h2
      exact ⟨M, by rw [if_pos this]⟩
    · rw [hstep]
      by_cases hlt : last_ts < M
      · rw [if_pos hlt]; exact le_of_lt hlt
      · rw [if_neg hlt]; exact le_refl last_ts

/-- Witness for C2 at the concrete scenario: stored watermark 1000, feed
response at timestamps 900, 1200, 1100.  Exactly the trades at 1100 and 1200
are alerted, in the order 1100 then 1200, the persisted watermark is 1200, and
the theorem applied there confirms 1200 is the maximum alerted timestamp. -/
theorem whale_cycle_order_and_watermark_witness :
    (whaleCycleStep 1000 sampleResp).1 = [mkTrade 1100, mkTrade 1200]
    ∧ (whaleCycleStep 1000 sampleResp).2 = some 1200
    ∧ (1200 ∈ ((whaleCycleStep 1000 sampleResp).1).map Trade.timestamp
        ∧ ∀ x ∈ ((whaleCycleStep 1000 sampleResp).1).map Trade.timestamp, x ≤ 1200) :=
  ⟨by decide, by decide,
   (whale_cycle_order_and_watermark 1000 sampleResp).2.2.1 1200 (by decide)⟩

/-- A trade of the feed response that is strictly newer than the watermark is
bounded by the effective watermark after the cycle. -/
theorem whaleCycleStep_mem_le (last_ts : Int) (resp : List Trade) (t : Trade)
    (ht : t ∈ resp) (hgt : last_ts < t.timestamp) :
    t.timestamp ≤ (whaleCycleStep last_ts resp).2.getD last_ts := by
  have htm : t ∈ pm_get_activity_trades resp (some last_ts) := by
    simp [pm_get_activity_trades, List.mem_filter, ht, hgt]
  have hemp2 : (pm_get_activity_trades resp (some last_ts)).isEmpty = false := by
    cases h : pm_get_activity_trades resp (some last_ts) with
    | nil => rw [h] at htm; cases htm
    | cons a l => rfl
  have hts : t ∈ List.insertionSort tradeLE (pm_get_activity_trades resp (some last_ts)) :=
    ((List.perm_insertionSort tradeLE _).mem_iff).mpr htm
  have htA : t ∈ (List.insertionSort tradeLE
      (pm_get_activity_trades resp (some last_ts))).filter
        (fun s => decide (last_ts < s.timestamp)) :=
    List.mem_filter.mpr ⟨hts, by simpa using hgt⟩
  have h2 : t.timestamp ≤
      ((((List.insertionSort tradeLE (pm_get_activity_trades resp (some last_ts))).filter
          (fun s => decide (last_ts < s.timestamp))).map Trade.timestamp).foldl max last_ts) :=
    mem_le_foldl_max _ last_ts _ (List.mem_map_of_mem Trade.timestamp htA)
  have h3 : last_ts <
      ((((List.insertionSort tradeLE (pm_get_activity_trades resp (some last_ts))).filter
          (fun s => decide (last_ts < s.timestamp))).map Trade.timestamp).foldl max last_ts) :=
    lt_of_lt_of_le hgt h2
  rw [whaleCycleStep, monitorWhaleAddress_spec last_ts _ hemp2]
  simpa [if_pos h3] using h2

/-- Re-running a whale cycle with an unchanged feed response after the
watermark advanced produces no alerts and no watermark write. -/
theorem whaleCycleStep_second_run (last_ts : Int) (resp : List Trade) :
    whaleCycleStep ((whaleCycleStep last_ts resp).2.getD last_ts) resp
      = ([], none) := by
  have hge : last_ts ≤ (whaleCycleStep last_ts resp).2.getD last_ts := by
    by_cases hemp : (pm_get_activity_trades resp (some last_ts)).isEmpty
    · simp [whaleCycleStep, monitorWhaleAddress, hemp]
    · have hemp2 : (pm_get_activity_trades resp (some last_ts)).isEmpty = false := by
        simpa using hemp
      rw [whaleCycleStep, monitorWhaleAddress_spec last_ts _ hemp2]
      by_cases h3 : last_ts <
          ((((List.insertionSort tradeLE (pm_get_activity_trades resp (some last_ts))).filter
              (fun s => decide (last_ts < s.timestamp))).map Trade.timestamp).foldl max last_ts)
      · simpa [if_pos h3] using le_of_lt h3
      · simp [if_neg h3]
  have hnil : pm_get_activity_trades resp
      (some ((whaleCycleStep last_ts resp).2.getD last_ts)) = [] := by
    rw [pm_get_activity_trades]
    apply List.filter_eq_nil_iff.mpr
    intro t ht
    simp only [decide_eq_true_eq, not_lt]
    by_cases hgt : last_ts < t.timestamp
    · exact whaleCycleStep_mem_le last_ts resp t ht hgt
    · exact le_trans (not_lt.mp hgt) hge
  rw [whaleCycleStep, hnil]
  rfl

/-- C10: the activity request carries a fixed `limit` of 100, so a feed
response honouring it has at most 100 trades and at most 100 whale alerts can
be emitted for one address in one cycle, whatever the stored watermark
(including the first cycle after tracking, with watermark 0). -/
theorem whale_alerts_bounded_by_limit (last_ts : Int) (resp : List Trade)
    (h : resp.length ≤ pm_activity_request_limit) :
    (whaleCycleStep last_ts resp).1.length ≤ 100 := by
  by_cases hemp : (pm_get_activity_trades resp (some last_ts)).isEmpty
  · simp [whaleCycleStep, monitorWhaleAddress, hemp]
  · have hemp2 : (pm_get_activity_trades resp (some last_ts)).isEmpty = false := by
      simpa using hemp
    rw [whaleCycleStep, monitorWhaleAddress_spec last_ts _ hemp2]
    have h1 : ((List.insertionSort tradeLE (pm_get_activity_trades resp (some last_ts))).filter
        (fun s => decide (last_ts < s.timestamp))).length
        ≤ (List.insertionSort tradeLE (pm_get_activity_trades resp (some last_ts))).length :=
      List.length_filter_le _ _
    have h2 : (List.insertionSort tradeLE (pm_get_activity_trades resp (some last_ts))).length
        = (pm_get_activity_trades resp (some last_ts)).length :=
      (List.perm_insertionSort tradeLE _).length_eq
    have h3 : (pm_get_activity_trades resp (some last_ts)).length ≤ resp.length := by
      rw [pm_get_activity_trades]
      exact List.length_filter_le _ _
    calc ((List.insertionSort tradeLE (pm_get_activity_trades resp (some last_ts))).filter
            (fun s => decide (last_ts < s.timestamp))).length
        ≤ (pm_get_activity_trades resp (some last_ts)).length := h2 ▸ h1
      _ ≤ resp.length := h3
      _ ≤ 100 := h

/-- Witness for C10: the sample response has 3 ≤ 100 trades, and the first
cycle after tracking (watermark 0) emits at most 100 alerts on it. -/
theorem whale_alerts_bounded_by_limit_witness :
    sampleResp.length ≤ pm_activity_request_limit
    ∧ (whaleCycleStep 0 sampleResp).1.length ≤ 100 :=
  ⟨by decide, whale_alerts_bounded_by_limit 0 sampleResp (by decide)⟩

/-- A persisted watermark value is strictly greater than the stored one. -/
theorem whaleCycleStep_persist_gt (last_ts : Int) (resp : List Trade) (w : Int)
    (hw : (whaleCycleStep last_ts resp).2 = some w) : last_ts < w := by
  by_cases hemp : (pm_get_activity_trades resp (some last_ts)).isEmpty
  · rw [whaleCycleStep] at hw
    simp [monitorWhaleAddress, hemp] at hw
  · have hemp2 : (pm_get_activity_trades resp (some last_ts)).isEmpty = false := by
      simpa using hemp
    rw [whaleCycleStep, monitorWhaleAddress_spec last_ts _ hemp2] at hw
    by_cases h3 : last_ts <
        ((((List.insertionSort tradeLE (pm_get_activity_trades resp (some last_ts))).filter
            (fun s => decide (last_ts < s.timestamp))).map Trade.timestamp).foldl max last_ts)
    · rw [if_pos h3] at hw
      have : w = _ := (Option.some_injective _ hw.symm)
      exact this ▸ h3
    · rw [if_neg h3] at hw
      cases hw

/-- C8: the activity watermark is monotonically non-decreasing.  Tracking a
new whale address creates its marker at value 0 (`save_wallet`), a whale cycle
writes the marker only with a value strictly greater than the stored one, and
the effective watermark after any cycle is never below the stored one. -/
theorem activity_watermark_monotonic :
    (∀ (db : DB) (tg : Int) (addr : String) (lbl : Option String),
        tripleExists db tg addr true = false →
          (save_wallet db tg addr lbl true).1.markers
              = db.markers ++ [⟨db.nextId, 0⟩]
          ∧ (save_wallet db tg addr lbl true).2 = "whale_added")
    ∧ (∀ (last_ts : Int) (resp : List Trade) (w : Int),
        (whaleCycleStep last_ts resp).2 = some w → last_ts < w)
    ∧ (∀ (last_ts : Int) (resp : List Trade),
        last_ts ≤ (whaleCycleStep last_ts resp).2.getD last_ts) := by
  refine ⟨?_, whaleCycleStep_persist_gt, ?_⟩
  · intro db tg addr lbl hfresh
    constructor <;> simp [save_wallet, hfresh]
  · intro last_ts resp
    cases hw : (whaleCycleStep last_ts resp).2 with
    | none => exact le_refl last_ts
    | some w => exact le_of_lt (whaleCycleStep_persist_gt last_ts resp w hw)

/-- Witness for C8: on the empty database, tracking whale address "0xabc"
creates its marker at 0; on the concrete feed, the cycle with stored watermark
1000 persists 1200, and the theorem yields 1000 < 1200. -/
theorem activity_watermark_monotonic_witness :
    tripleExists emptyDB 7 "0xabc" true = false
    ∧ (save_wallet emptyDB 7 "0xabc" none true).1.markers
        = emptyDB.markers ++ [⟨emptyDB.nextId, 0⟩]
    ∧ (whaleCycleStep 1000 sampleResp).2 = some 1200
    ∧ (1000 : Int) < 1200 :=
  ⟨by decide,
   (activity_watermark_monotonic.1 emptyDB 7 "0xabc" none (by decide)).1,
   by decide,
   activity_watermark_monotonic.2.1 1000 sampleResp 1200 (by decide)⟩

/-- One `save_wallet` call preserves the uniqueness of (subscriber, address,
is_whale) triples: a matching row makes it return without inserting, and a
fresh triple is inserted exactly once. -/
theorem save_wallet_preserves_unique (db : DB) (tg : Int) (addr : String)
    (lbl : Option String) (iw : Bool) (h : UniqueTriples db) :
    UniqueTriples (save_wallet db tg addr lbl iw).1 := by
  by_cases hex : tripleExists db tg addr iw = true
  · simpa [save_wallet, hex] using h
  · have hnot : ∀ w ∈ db.wallets, tripleOf w ≠ (tg, addr, iw) := by
      intro w hw hcon
      apply hex
      have h1 : w.tg_user_id = tg := congrArg Prod.fst hcon
      have h2 : w.address = addr := congrArg (fun p => p.2.1) hcon
      have h3 : w.is_whale = iw := congrArg (fun p => p.2.2) hcon
      simp only [tripleExists, List.any_eq_true, Bool.and_eq_true, beq_iff_eq]
      exact ⟨w, hw, ⟨h1, h2⟩, h3⟩
    have hdisj : ∀ (row : WalletRow), tripleOf row = (tg, addr, iw) →
        UniqueTriples ⟨db.wallets ++ [row], db.markers ++ [⟨db.nextId, 0⟩], db.nextId + 1⟩
        ∧ UniqueTriples ⟨db.wallets ++ [row], db.markers, db.nextId + 1⟩ := by
      intro row hrow
      have hnd : ((db.wallets ++ [row]).map tripleOf).Nodup := by
        rw [List.map_append, List.nodup_append]
        refine ⟨h, List.nodup_singleton _, ?_⟩
        intro a ha hb
        simp only [List.map_cons, List.map_nil, List.mem_singleton] at hb
        rcases List.mem_map.mp ha with ⟨w, hw, hwa⟩
        exact hnot w hw (by rw [hwa, hb, hrow])
      exact ⟨hnd, hnd⟩
    rcases Bool.eq_false_or_eq_true iw with hiw | hiw
    · subst hiw
      have := (hdisj ⟨db.nextId, tg, addr, lbl, true, true, true⟩ rfl).1
      simpa [save_wallet, hex] using this
    · subst hiw
      have := (hdisj ⟨db.nextId, tg, addr, lbl, false, true, false⟩ rfl).2
      simpa [save_wallet, hex] using this

/-- Any sequence of `save_wallet` calls preserves triple uniqueness. -/
theorem runSaves_preserves_unique (ops : List SaveOp) :
    ∀ db : DB, UniqueTriples db → UniqueTriples (runSaves ops db) := by
  induction ops with
  | nil => intro db h; exact h
  | cons op ops ih =>
    intro db h
    exact ih _ (save_wallet_preserves_unique db op.tg op.addr op.label op.is_whale h)

/-- C9: `save_wallet` preserves the uniqueness of (subscriber, address,
is_whale) triples: an existing triple makes it return "exists" with the
database unchanged, every reachable state keeps triples unique, and the same
address can still be added as a whale while an own-wallet row for it exists. -/
theorem save_wallet_unique_triples :
    (∀ (db : DB) (tg : Int) (addr : String) (lbl : Option String) (iw : Bool),
        tripleExists db tg addr iw = true →
          save_wallet db tg addr lbl iw = (db, "exists"))
    ∧ (∀ (db : DB) (ops : List SaveOp),
        UniqueTriples db → UniqueTriples (runSaves ops db))
    ∧ (∀ (db : DB) (tg : Int) (addr : String) (lbl : Option String),
        tripleExists db tg addr true = false →
          (save_wallet db tg addr lbl true).2 = "whale_added"
          ∧ (save_wallet db tg addr lbl true).1.wallets
              = db.wallets ++ [⟨db.nextId, tg, addr, lbl, true, true, true⟩]) := by
  refine ⟨?_, ?_, ?_⟩
  · intro db tg addr lbl iw hex
    simp [save_wallet, hex]
  · intro db ops h
    exact runSaves_preserves_unique ops db h
  · intro db tg addr lbl hfresh
    constructor <;> simp [save_wallet, hfresh]

/-- Witness for C9: after tracking "0xabc" as an own wallet for subscriber 7,
re-adding it in the same role returns "exists" and changes nothing, adding it
as a whale succeeds (coexistence of the two roles), and replaying a sequence
with a duplicate whale add still leaves all triples unique. -/
theorem save_wallet_unique_triples_witness :
    tripleExists dbOwn 7 "0xabc" false = true
    ∧ save_wallet dbOwn 7 "0xabc" none false = (dbOwn, "exists")
    ∧ tripleExists dbOwn 7 "0xabc" true = false
    ∧ (save_wallet dbOwn 7 "0xabc" none true).2 = "whale_added"
    ∧ UniqueTriples emptyDB
    ∧ UniqueTriples (runSaves
        [⟨7, "0xabc", none, false⟩, ⟨7, "0xabc", none, true⟩,
         ⟨7, "0xabc", none, true⟩] emptyDB) :=
  ⟨by decide,
   save_wallet_unique_triples.1 dbOwn 7 "0xabc" none false (by decide),
   by decide,
   (save_wallet_unique_triples.2.2 dbOwn 7 "0xabc" none (by decide)).1,
   by decide,
   save_wallet_unique_triples.2.1 emptyDB
     [⟨7, "0xabc", none, false⟩, ⟨7, "0xabc", none, true⟩,
      ⟨7, "0xabc", none, true⟩] (by decide)⟩

/-- C6: an address whose positions fetch raises is skipped entirely for the
cycle — no state change and no alert for it — and the cycle over the roster
behaves exactly as if that address were absent, so the remaining addresses are
unaffected. -/
theorem position_fetch_failure_skips_address (threshold : ℚ) (now : Nat)
    (pre post : List (WalletInfo × AddrFetch)) (w : WalletInfo) (f : AddrFetch)
    (s : StateA) (h : f.positions = none) :
    monitorPositionsCyclePg threshold now (pre ++ (w, f) :: post) s
      = monitorPositionsCyclePg threshold now (pre ++ post) s
    ∧ monitorPositionsCyclePg threshold now [(w, f)] s = (s, []) := by
  constructor
  · induction pre generalizing s with
    | nil => simp [monitorPositionsCyclePg, h]
    | cons a pre ih =>
      obtain ⟨w2, f2⟩ := a
      cases hf : f2.positions with
      | none =>
        simp only [List.cons_append, monitorPositionsCyclePg, hf]
        exact ih s
      | some ps =>
        simp only [List.cons_append, monitorPositionsCyclePg, hf]
        cases hok : (monitorPositionsAddressPg threshold now w2 ps
            (match f2.value with | none => none | some v => v) s).2.2
        · simp [hok]
        · simp [hok, ih]
  · simp [monitorPositionsCyclePg, h]

/-- Witness for C6: with a concrete failing fetch in front of a healthy
address, the cycle result equals the cycle without the failing address, and the
failing address alone produces no state change and no alert. -/
theorem position_fetch_failure_skips_address_witness :
    (⟨none, some (some 3)⟩ : AddrFetch).positions = none
    ∧ monitorPositionsCyclePg 5 1
        ((sampleWallet, (⟨none, some (some 3)⟩ : AddrFetch)) :: c4Roster) ⟨c1Store, []⟩
      = monitorPositionsCyclePg 5 1 c4Roster ⟨c1Store, []⟩
    ∧ monitorPositionsCyclePg 5 1
        [(sampleWallet, (⟨none, some (some 3)⟩ : AddrFetch))] ⟨c1Store, []⟩
      = (⟨c1Store, []⟩, []) :=
  ⟨rfl,
   (position_fetch_failure_skips_address 5 1 [] c4Roster sampleWallet
      ⟨none, some (some 3)⟩ ⟨c1Store, []⟩ rfl).1,
   (position_fetch_failure_skips_address 5 1 [] c4Roster sampleWallet
      ⟨none, some (some 3)⟩ ⟨c1Store, []⟩ rfl).2⟩

/-- C1 (divergence evidence): at the concrete scenario — stored percentage 10,
threshold 5, current percentage 16 — the alert condition computed by the loop
is met, but the upsert statement is rejected by PostgreSQL's INSERT-VALUES
scoping rule, so executing it raises: the per-position loop aborts leaving the
stored percentage at 10 and emitting no alert, instead of the alert and stored
percentage 16 the claim describes. -/
theorem position_alert_upsert_failure :
    positionUpsertRaises = true
    ∧ shouldAlertFor 5 (findSnapshot c1Store 1 "cond-1") 16 = true
    ∧ processPositionsPg 5 1 1 [c1Pos] c1Store = (c1Store, [], false) := by
  refine ⟨rfl, ?_, rfl⟩
  have h : findSnapshot c1Store 1 "cond-1"
      = some ⟨1, "cond-1", some "Market", some "Yes", some 10, some 1, none, 0⟩ := rfl
  rw [h]
  simp only [shouldAlertFor, decide_eq_true_eq]
  norm_num

/-- C3 (divergence evidence): on a first observation (no snapshot row for the
pair), the loop indeed decides not to alert, but the insert of the first
snapshot raises, so no snapshot is stored either: the store stays empty,
against the claim that the first observation stores the current percentage and
price. -/
theorem position_cold_start_stores_nothing :
    findSnapshot ([] : List PosSnapshot) 1 "cond-1" = none
    ∧ shouldAlertFor 5 (findSnapshot ([] : List PosSnapshot) 1 "cond-1") 16 = false
    ∧ processPositionsPg 5 1 1 [c1Pos] [] = ([], [], false) :=
  ⟨rfl, rfl, rfl⟩

/-- C4 (divergence evidence): with unchanged remote data, the first position
cycle stores nothing (the upsert raises), so before the second run there is
still no prior snapshot: the claimed second-run delta of 0 is never computed —
both runs leave the state unchanged and emit nothing.  The whale half of the
claim does hold: after a cycle advances the watermark, re-running on the same
feed response alerts nothing and writes nothing. -/
theorem second_cycle_no_new_alerts_failure :
    (monitorPositionsCyclePg 5 1 c4Roster ⟨[], []⟩ = (⟨[], []⟩, [])
      ∧ findSnapshot (monitorPositionsCyclePg 5 1 c4Roster ⟨[], []⟩).1.posStore
          1 "cond-1" = none
      ∧ monitorPositionsCyclePg 5 2 c4Roster
          (monitorPositionsCyclePg 5 1 c4Roster ⟨[], []⟩).1 = (⟨[], []⟩, []))
    ∧ (∀ (last_ts : Int) (resp : List Trade),
        whaleCycleStep ((whaleCycleStep last_ts resp).2.getD last_ts) resp
          = ([], none)) :=
  ⟨⟨rfl, rfl, rfl⟩, whaleCycleStep_second_run⟩

/-- C5 (divergence evidence): at prior percentage 10, threshold 5, current
percentage 12, no alert is decided — but the upsert raises, so the snapshot is
not refreshed either: the stored percentage stays 10 and `updated_at` stays 0,
against the claim that they are refreshed to the current values. -/
theorem position_below_threshold_no_refresh :
    shouldAlertFor 5 (findSnapshot c1Store 1 "cond-1") 12 = false
    ∧ processPositionsPg 5 1 1 [c5Pos] c1Store = (c1Store, [], false) := by
  refine ⟨?_, rfl⟩
  have h : findSnapshot c1Store 1 "cond-1"
      = some ⟨1, "cond-1", some "Market", some "Yes", some 10, some 1, none, 0⟩ := rfl
  rw [h]
  simp only [shouldAlertFor, decide_eq_false_iff_not]
  norm_num

/-- C7 (divergence evidence): when the value fetch raises and the positions
fetch succeeds, no equity row is appended — that half of the claim holds — but
the position snapshots are not "upserted normally": the upsert raises on the
first diffable position, so the state is returned unchanged and no alert is
emitted, even though the prior snapshot and the current percentage 16 meet the
alert condition. -/
theorem value_fetch_failure_no_equity_row :
    c7Fetch.positions = some [c1Pos]
    ∧ c7Fetch.value = none
    ∧ monitorPositionsCyclePg 5 1 [(sampleWallet, c7Fetch)] ⟨c1Store, []⟩
        = (⟨c1Store, []⟩, []) :=
  ⟨rfl, rfl, rfl⟩

end PolyAlert
